import Mathlib

/-!
Verification development for the charcoal Solidity-to-Sway transpiler.

The Rust sources embedded here are src/main.rs, src/project.rs and
src/translate.rs. The solang parser, the file system and the sway AST
renderer are external collaborators; they are modelled as oracles
(`Fs.parseSource`, `Fs.canonicalize`, `Fs.read`) or as plain data
(`OutLine` values standing for rendered output). Machine integers do
not occur on the embedded paths; character indices are Nat.
-/

namespace Charcoal

/-! ## Solidity AST (the subset of solang_parser::pt used by project.rs) -/

namespace Sol

structure Identifier where
  name : String
deriving DecidableEq

inductive ImportPath where
  | filename (s : String)
  | path (s : String)
deriving DecidableEq

inductive Import where
  | plain (p : ImportPath)
  | globalSymbol (p : ImportPath)
  | rename (p : ImportPath)
deriving DecidableEq

inductive Visibility where
  | external
  | public
  | internal
  | privateVis
deriving DecidableEq

inductive VariableAttribute where
  | visibility (v : Visibility)
  | constant
  | immutable
  | other
deriving DecidableEq

inductive FunctionAttribute where
  | visibility (v : Visibility)
  | other
deriving DecidableEq

inductive FunctionTy where
  | constructor
  | function
  | fallback
  | receive
  | modifierTy
deriving DecidableEq

/-- A solang parameter; the type is kept in its printed form, since the
Rust code only ever consumes `ty.to_string()`. -/
structure Parameter where
  ty : String
  name : Option Identifier
deriving DecidableEq

structure VariableDeclaration where
  ty : String
  name : Option Identifier
deriving DecidableEq

structure EventDefinition where
  name : Option Identifier
  fields : List Parameter
deriving DecidableEq

structure ErrorDefinition where
  name : Option Identifier
  fields : List Parameter
deriving DecidableEq

structure StructDefinition where
  name : Option Identifier
  fields : List VariableDeclaration
deriving DecidableEq

structure TypeDefinition where
  name : String
  ty : String
deriving DecidableEq

structure VariableDefinition where
  ty : String
  attrs : List VariableAttribute
  name : Option Identifier
deriving DecidableEq

structure FunctionDefinition where
  ty : FunctionTy
  name : Option Identifier
  attributes : List FunctionAttribute
  params : List (Option Parameter)
  returns : List (Option Parameter)
deriving DecidableEq

inductive ContractTy where
  | abstract
  | contract
  | interface
  | library
deriving DecidableEq

/-- Contract members. The enum payload is never inspected by the
translators, so it is elided. -/
inductive ContractPart where
  | typeDefinition (t : TypeDefinition)
  | structDefinition (s : StructDefinition)
  | enumDefinition
  | eventDefinition (e : EventDefinition)
  | errorDefinition (e : ErrorDefinition)
  | variableDefinition (v : VariableDefinition)
  | functionDefinition (f : FunctionDefinition)
  | annot
  | usingDir
  | straySemicolon
deriving DecidableEq

structure ContractDefinition where
  ty : ContractTy
  name : Option Identifier
  parts : List ContractPart
deriving DecidableEq

/-- Top-level items. Payloads of the free declarations are never
inspected (each arm in translate() is a fatal stub), so they are elided. -/
inductive SourceUnitPart where
  | pragmaDirective
  | importDirective (i : Import)
  | contractDefinition (c : ContractDefinition)
  | enumDefinition
  | structDefinition
  | eventDefinition
  | errorDefinition
  | functionDefinition
  | variableDefinition
  | typeDefinition
  | annot
  | usingDir
  | straySemicolon
deriving DecidableEq

structure SourceUnit where
  parts : List SourceUnitPart
deriving DecidableEq

end Sol

/-! ## Sway AST as used by project.rs

The sway module itself is not under src/; its data shapes are read off
from every construction site in project.rs. The get-or-create methods of
`sway::Module` are modelled from the spec (fields checked then
initialized on first access, idempotent). -/

namespace Sway

structure GenericParameterList where
  entries : List String
deriving DecidableEq

structure TypeName where
  name : String
  generic_parameters : GenericParameterList
deriving DecidableEq

inductive Expression where
  | identifier (s : String)
  | functionCall (function : Expression) (generic_parameters : Option GenericParameterList)
      (parameters : List Expression)

inductive Statement where
  | todoStatement

structure Block where
  statements : List Statement
  final_expr : Option Expression

structure Parameter where
  name : String
  type_name : TypeName
deriving DecidableEq

structure ParameterList where
  entries : List Parameter
deriving DecidableEq

structure Function where
  is_public : Bool
  name : String
  generic_parameters : GenericParameterList
  parameters : ParameterList
  return_type : Option TypeName
  body : Option Block

structure Abi where
  name : String
  functions : List Function

structure EnumVariant where
  name : String
  type_name : TypeName
deriving DecidableEq

structure Enum where
  is_public : Bool
  name : String
  generic_parameters : GenericParameterList
  variants : List EnumVariant
deriving DecidableEq

structure Constant where
  is_public : Bool
  name : String
  type_name : TypeName
  value : Option Expression

structure StorageField where
  name : String
  type_name : TypeName
  value : Expression

structure Storage where
  fields : List StorageField

structure StructField where
  is_public : Bool
  name : String
  type_name : TypeName
deriving DecidableEq

structure Struct where
  is_public : Bool
  name : String
  generic_parameters : GenericParameterList
  fields : List StructField
deriving DecidableEq

structure TypeDefinition where
  is_public : Bool
  name : TypeName
  underlying_type : Option TypeName
deriving DecidableEq

inductive ModuleItem where
  | structDef (s : Struct)
  | constantDef (c : Constant)
  | typeDef (t : TypeDefinition)

inductive ImplItem where
  | function (f : Function)

/-- Modelled from the spec: sway.rs is not under src/; an implementation
block is keyed by its (type, for-type) pair, here kept as plain names
since project.rs only ever forms `impl <contract> for Contract`. -/
structure Impl where
  type_name : String
  for_type_name : String
  items : List ImplItem

inductive ModuleKind where
  | contract
deriving DecidableEq

/-- Modelled from the spec: sway.rs is not under src/. A module holds its
ordered item list plus the optional singular sections reached through the
get-or-create accessors used by project.rs (storage, ABI) and the list of
implementation blocks (at most one per distinct (type, for-type) pair). -/
structure Module where
  kind : ModuleKind
  items : List ModuleItem
  abi : Option Abi
  storage : Option Storage
  impls : List Impl

def Module.new (k : ModuleKind) : Module :=
  { kind := k, items := [], abi := none, storage := none, impls := [] }

/-- Modelled from the spec: lazily creates the storage block on first
demand and returns the single instance. -/
def Module.get_or_create_storage (m : Module) : Storage × Module :=
  match m.storage with
  | some s => (s, m)
  | none =>
    let s : Storage := { fields := [] }
    (s, { m with storage := some s })

/-- Modelled from the spec: lazily creates the ABI section on first
demand and returns the single instance. -/
def Module.get_or_create_abi (m : Module) (name : String) : Abi × Module :=
  match m.abi with
  | some a => (a, m)
  | none =>
    let a : Abi := { name := name, functions := [] }
    (a, { m with abi := some a })

def implMatches (tn ftn : String) (i : Impl) : Bool :=
  i.type_name == tn && i.for_type_name == ftn

/-- Modelled from the spec: returns the implementation block for the
given (type, for-type) pair, creating it at most once per module. -/
def Module.get_or_create_impl_for (m : Module) (tn ftn : String) : Impl × Module :=
  match m.impls.find? (implMatches tn ftn) with
  | some i => (i, m)
  | none =>
    let i : Impl := { type_name := tn, for_type_name := ftn, items := [] }
    (i, { m with impls := m.impls ++ [i] })

def replaceFirst {α : Type} (p : α → Bool) (x : α) : List α → List α
  | [] => []
  | a :: rest => if p a then x :: rest else a :: replaceFirst p x rest

/-- Modelled from the spec: writes back a mutation performed through the
reference returned by `get_or_create_impl_for` (the first matching block). -/
def Module.set_impl_for (m : Module) (tn ftn : String) (i : Impl) : Module :=
  { m with impls := replaceFirst (implMatches tn ftn) i m.impls }

/-- Observer: the functions of the ABI section (empty when absent). -/
def abi_functions (m : Module) : List Function :=
  match m.abi with
  | some a => a.functions
  | none => []

/-- Observer: the fields of the storage section (empty when absent). -/
def storage_fields (m : Module) : List StorageField :=
  match m.storage with
  | some s => s.fields
  | none => []

/-- Observer: the items of the first implementation block for the given
pair (empty when absent). -/
def contract_impl_items (m : Module) (tn : String) : List ImplItem :=
  match m.impls.find? (implMatches tn "Contract") with
  | some i => i.items
  | none => []

end Sway

/-! ## Errors, panics, and the process state

`Error` embeds errors.rs (not under src/; its two constructors are read
off from every construction site in project.rs). `Failure.fatal` models
a Rust panic (todo!, unimplemented!, unreachable!, or Option::unwrap on
None): it propagates to the top like an error but is not an Err value
returned through the Result channel. -/

inductive Error where
  | wrapped (msg : String)
  | solangDiagnostics (path : String) (line_ranges : List (Nat × Nat)) (msg : String)
deriving DecidableEq

inductive Failure where
  | err (e : Error)
  | fatal (msg : String)
deriving DecidableEq

def unwrapFatal : Failure :=
  .fatal "called Option::unwrap on a None value"

def is_err_failure : Option Failure → Bool
  | some (.err _) => true
  | _ => false

/-- A line printed to standard output. Rendering (sway::TabbedDisplayer)
is an external collaborator, so a printed value is kept as the AST value
that was handed to the renderer; println! of a literal is a note. -/
inductive OutLine where
  | note (s : String)
  | enumOut (e : Sway.Enum)
  | abiOut (a : Sway.Abi)
  | moduleOut (m : Sway.Module)

/-- The external collaborators: path canonicalization and file reading
(std::fs) and the solang parser, keyed by the text it is given. -/
structure Fs where
  canonicalize : String → Option String
  read : String → Option String
  parseSource : String → Except String Sol.SourceUnit

/-- The fields of struct Project, plus the stream of lines printed so
far (stdout is process state threaded through the run). -/
structure St where
  line_ranges : List (String × List (Nat × Nat))
  solidity_source_units : List (String × Sol.SourceUnit)
  stdout : List OutLine

def St.empty : St :=
  { line_ranges := [], solidity_source_units := [], stdout := [] }

def pushOut (st : St) (l : OutLine) : St :=
  { st with stdout := st.stdout ++ [l] }

/-- Association list with HashMap insert semantics: replace the entry in
place when the key is present, append otherwise. The list order models
one possible iteration order of the HashMap. -/
def assocInsert {β : Type} : List (String × β) → String → β → List (String × β)
  | [], key, v => [(key, v)]
  | (k, w) :: rest, key, v =>
    if k = key then (key, v) :: rest else (k, w) :: assocInsert rest key v

def assocGet {β : Type} : List (String × β) → String → Option β
  | [], _ => none
  | (k, v) :: rest, key => if k = key then some v else assocGet rest key

/-! ## Case conversion (convert_case collaborator)

Models Case::Snake and Case::UpperSnake of the convert_case crate for
identifiers made of letters, digits and underscores. -/

def snakeStep (acc : String) (c : Char) : String :=
  if c.isUpper then
    (if acc.isEmpty then acc else acc ++ "_") ++ (c.toLower).toString
  else
    acc ++ c.toString

def toSnakeCase (s : String) : String :=
  s.toList.foldl snakeStep ""

def toUpperSnake (s : String) : String :=
  String.mk ((toSnakeCase s).toList.map Char.toUpper)

/-! ## Source Loader (project.rs lines 64-108) -/

/-- Left-to-right, non-overlapping replacement of the two-character
pattern p1 p2 by the single character r (String::replace for the two
patterns project.rs uses). -/
def replace2 (p1 p2 r : Char) : List Char → List Char
  | [] => []
  | [c] => [c]
  | c1 :: c2 :: rest =>
    if c1 = p1 ∧ c2 = p2 then r :: replace2 p1 p2 r rest
    else c1 :: replace2 p1 p2 r (c2 :: rest)

/-- The replace calls at the top of parse_solidity_source_unit:
doubled backslashes then doubled slashes are collapsed. -/
def normalizePath (p : String) : String :=
  String.mk (replace2 '/' '/' '/' (replace2 '\\' '\\' '\\' p.toList))

/-- The scan loop of load_line_ranges: walks the characters with their
index; a newline closes the current range and starts the next one at
i + 1 with end component 0. Returns the pushed ranges and the pending
range exactly as the Rust loop leaves them. -/
def lineRangesLoop : List Char → Nat → Nat × Nat → List (Nat × Nat) → List (Nat × Nat) × (Nat × Nat)
  | [], _, lr, acc => (acc, lr)
  | c :: cs, i, lr, acc =>
    if c = '\n' then
      lineRangesLoop cs (i + 1) (i + 1, 0) (acc ++ [(lr.1, i)])
    else
      lineRangesLoop cs (i + 1) lr acc

/-- The ranges load_line_ranges pushes for one source text, including
the trailing check `line_range.1 > line_range.0`. -/
def computeLineRanges (source : String) : List (Nat × Nat) :=
  let (acc, lr) := lineRangesLoop source.toList 0 (0, 0) []
  if lr.2 > lr.1 then acc ++ [lr] else acc

/-- Project::load_line_ranges: every push goes through
`entry(path).or_insert(vec![]).push`, so the table entry is created only
when at least one range is pushed; when nothing is pushed (a source
without any newline) the table is left untouched and no entry appears.
Otherwise the net effect is appending the computed ranges to whatever
the table already holds for the path. -/
def St.load_line_ranges (st : St) (path : String) (source : String) : St :=
  let rs := computeLineRanges source
  if rs.isEmpty then st
  else
    { st with
      line_ranges :=
        assocInsert st.line_ranges path
          (((assocGet st.line_ranges path).getD []) ++ rs) }

/-- Project::parse_solidity_source_unit. After loading the line ranges
the code does `self.line_ranges.get(&path).unwrap()`: when the table has
no entry for the path — which happens exactly when the source contains
no newline, so that load_line_ranges pushed nothing — this unwrap
panics before the parser ever runs. -/
def parse_solidity_source_unit (fs : Fs) (st : St) (p : String) : St × Option Failure :=
  match fs.canonicalize (normalizePath p) with
  | none => (st, some (.err (.wrapped "canonicalize")))
  | some path =>
    match fs.read path with
    | none => (st, some (.err (.wrapped "read_to_string")))
    | some source =>
      match assocGet (st.load_line_ranges path source).line_ranges path with
      | none => (st.load_line_ranges path source, some unwrapFatal)
      | some lrs =>
        match fs.parseSource source with
        | .error msg =>
          (st.load_line_ranges path source, some (.err (.solangDiagnostics path lrs msg)))
        | .ok su =>
          ({ st.load_line_ranges path source with
              solidity_source_units :=
                assocInsert (st.load_line_ranges path source).solidity_source_units path su },
            none)

/-- Project::try_from(&Options): parse every file given on the command
line, stopping at the first failure. -/
def loadAll (fs : Fs) : List String → St → St × Option Failure
  | [], st => (st, none)
  | p :: rest, st =>
    match parse_solidity_source_unit fs st p with
    | (st1, none) => loadAll fs rest st1
    | (st1, some f) => (st1, some f)

/-! ## Dependency Resolver (project.rs lines 110-154) -/

/-- Everything before the last slash (empty when there is none). -/
def beforeLastSlash (l : List Char) : List Char :=
  match l.reverse.dropWhile (fun c => c != '/') with
  | [] => []
  | _ :: rest => rest.reverse

/-- Path::parent of a slash-separated path, as the text the subsequent
join prepends: parent of /A.sol is the empty prefix, so joining a
filename yields /filename. -/
def parentDir (p : String) : String :=
  String.mk (beforeLastSlash p.toList)

def joinPath (dir f : String) : String :=
  dir ++ "/" ++ f

/-- `conversion_queue.iter().enumerate().find(...)` comparing the
to_string_lossy forms, i.e. string equality. -/
def findIndex : List String → String → Option Nat
  | [], _ => none
  | x :: xs, k => if x = k then some 0 else (findIndex xs k).map (· + 1)

/-- Resolution of one import path against the importing directory. -/
def import_resolves (fs : Fs) (dir : String) : Sol.ImportPath → Option String
  | .filename f => fs.canonicalize (joinPath dir f)
  | .path _ => none

/-- The queue_import_path closure: canonicalize the import relative to
the importing directory; if already queued, move it to the front,
otherwise append it at the back. The experimental path form hits todo!. -/
def queue_import_path (fs : Fs) (dir : String) (q : List String) :
    Sol.ImportPath → Except Failure (List String)
  | .filename f =>
    match fs.canonicalize (joinPath dir f) with
    | none => .error (.err (.wrapped "canonicalize"))
    | some import_path =>
      match findIndex q import_path with
      | some i => .ok (import_path :: q.eraseIdx i)
      | none => .ok (q ++ [import_path])
  | .path s => .error (.fatal ("Experimental solidity import path: " ++ s))

/-- The import directives of one source unit, in order, each unwrapped
from its Plain / GlobalSymbol / Rename form. -/
def unit_imports (su : Sol.SourceUnit) : List Sol.ImportPath :=
  su.parts.foldr
    (fun part acc =>
      match part with
      | .importDirective (.plain ip) => ip :: acc
      | .importDirective (.globalSymbol ip) => ip :: acc
      | .importDirective (.rename ip) => ip :: acc
      | _ => acc)
    []

def queueImports (fs : Fs) (dir : String) : List Sol.ImportPath → List String → Except Failure (List String)
  | [], q => .ok q
  | ip :: rest, q =>
    match queue_import_path fs dir q ip with
    | .error f => .error f
    | .ok q1 => queueImports fs dir rest q1

def queueUnits (fs : Fs) : List (String × Sol.SourceUnit) → List String → Except Failure (List String)
  | [], q => .ok q
  | (path, su) :: rest, q =>
    match queueImports fs (parentDir path) (unit_imports su) q with
    | .error f => .error f
    | .ok q1 => queueUnits fs rest q1

/-- Project::create_conversion_queue: scan every cached source unit (in
the iteration order fixed by the association list) and queue each import. -/
def create_conversion_queue (fs : Fs) (st : St) : Except Failure (List String) :=
  queueUnits fs st.solidity_source_units []

/-! ## Type Mapper (project.rs lines 156-169) -/

def translate_type_name (type_name : String) : Sway.TypeName :=
  { name :=
      if type_name = "uint" ∨ type_name = "uint256" then "u64"
      else if type_name = "address" ∨ type_name = "address payable" then "Address"
      else type_name,
    generic_parameters := { entries := [] } }

/-! ## Interface Translator (project.rs lines 254-364) -/

def emptyGenerics : Sway.GenericParameterList := { entries := [] }

def joinComma (l : List String) : String :=
  String.intercalate ", " l

/-- Maps an unwrap chain over a list, failing (panicking) on the first
None, as `.as_ref().unwrap()` does inside the iterator adapters. -/
def mapUnwrap {α β : Type} (f : α → β) : List (Option α) → Option (List β)
  | [] => some []
  | none :: _ => none
  | some a :: rest => (mapUnwrap f rest).map (f a :: ·)

/-- One interface function parameter:
`p.unwrap().name.unwrap()` snake-cased plus the mapped type. -/
def interfaceParam (p : Option Sol.Parameter) : Option Sway.Parameter :=
  match p with
  | none => none
  | some p =>
    match p.name with
    | none => none
    | some n => some { name := toSnakeCase n.name, type_name := translate_type_name p.ty }

def interfaceParams : List (Option Sol.Parameter) → Option (List Sway.Parameter)
  | [] => some []
  | p :: rest => do
    let p1 ← interfaceParam p
    let r ← interfaceParams rest
    pure (p1 :: r)

/-- The return-type expression of the interface function translation:
None when there are no returns, the single mapped type when there is
exactly one, a synthesized tuple type name when there are several. The
outer Option is the panic channel of the unwraps. -/
def interface_return_type : List (Option Sol.Parameter) → Option (Option Sway.TypeName)
  | [] => some none
  | [r] =>
    match r with
    | none => none
    | some p => some (some (translate_type_name p.ty))
  | r1 :: r2 :: rest =>
    match mapUnwrap (fun p => (translate_type_name p.ty).name) (r1 :: r2 :: rest) with
    | none => none
    | some names =>
      some (some { name := "(" ++ joinComma names ++ ")", generic_parameters := emptyGenerics })

/-- The tuple payload type of an event or error variant. -/
def variantTupleType (fields : List Sol.Parameter) : Sway.TypeName :=
  { name := "(" ++ joinComma (fields.map fun f => (translate_type_name f.ty).name) ++ ")",
    generic_parameters := emptyGenerics }

/-- The loop body of translate_interface over the contract parts,
threading the events enum, the errors enum, the ABI and the lines
printed so far. On a panic the lines printed before it are kept. -/
def interfaceLoop (ev er : Sway.Enum) (ab : Sway.Abi) (out : List OutLine) :
    List Sol.ContractPart → (Sway.Enum × Sway.Enum × Sway.Abi × List OutLine) × Option Failure
  | [] => ((ev, er, ab, out), none)
  | part :: rest =>
    match part with
    | .typeDefinition _ =>
      interfaceLoop ev er ab (out ++ [.note "TODO: interface type definition"]) rest
    | .structDefinition _ =>
      interfaceLoop ev er ab (out ++ [.note "TODO: interface struct definition"]) rest
    | .enumDefinition =>
      interfaceLoop ev er ab (out ++ [.note "TODO: interface enum definition"]) rest
    | .eventDefinition ed =>
      match ed.name with
      | none => ((ev, er, ab, out), some unwrapFatal)
      | some n =>
        interfaceLoop
          { ev with variants := ev.variants ++ [{ name := n.name, type_name := variantTupleType ed.fields }] }
          er ab out rest
    | .errorDefinition ed =>
      match ed.name with
      | none => ((ev, er, ab, out), some unwrapFatal)
      | some n =>
        interfaceLoop ev
          { er with variants := er.variants ++ [{ name := n.name, type_name := variantTupleType ed.fields }] }
          ab out rest
    | .functionDefinition fd =>
      match fd.name with
      | none => ((ev, er, ab, out), some unwrapFatal)
      | some n =>
        match interfaceParams fd.params with
        | none => ((ev, er, ab, out), some unwrapFatal)
        | some entries =>
          match interface_return_type fd.returns with
          | none => ((ev, er, ab, out), some unwrapFatal)
          | some rt =>
            interfaceLoop ev er
              { ab with functions := ab.functions ++
                  [{ is_public := false,
                     name := toSnakeCase n.name,
                     generic_parameters := emptyGenerics,
                     parameters := { entries := entries },
                     return_type := rt,
                     body := none }] }
              out rest
    | .variableDefinition _ =>
      ((ev, er, ab, out), some (.fatal "interface variable declarations"))
    | .usingDir =>
      ((ev, er, ab, out), some (.fatal "interface using-for declarations"))
    | .annot => interfaceLoop ev er ab out rest
    | .straySemicolon => interfaceLoop ev er ab out rest

/-- Project::translate_interface, returning the lines it printed. The
errors enum is built but dropped: only a non-empty events enum and a
non-empty ABI are printed. -/
def translate_interface (cd : Sol.ContractDefinition) : List OutLine × Option Failure :=
  match cd.name with
  | none => ([], some unwrapFatal)
  | some cname =>
    let ev0 : Sway.Enum :=
      { is_public := true, name := cname.name ++ "Event",
        generic_parameters := emptyGenerics, variants := [] }
    let er0 : Sway.Enum :=
      { is_public := true, name := cname.name ++ "Error",
        generic_parameters := emptyGenerics, variants := [] }
    let ab0 : Sway.Abi := { name := cname.name, functions := [] }
    match interfaceLoop ev0 er0 ab0 [] cd.parts with
    | ((_, _, _, out), some f) => (out, some f)
    | ((ev, _, ab, out), none) =>
      let out1 := if ev.variants.isEmpty then out else out ++ [.enumOut ev]
      let out2 := if ab.functions.isEmpty then out1 else out1 ++ [.abiOut ab]
      (out2, none)

/-! ## Contract Translator (project.rs lines 370-567) -/

/-- The placeholder initializer `todo!()` used for constant and storage
values and for stubbed function bodies. -/
def todo_call : Sway.Expression :=
  .functionCall (.identifier "todo!") none []

def is_public_variable (vd : Sol.VariableDefinition) : Bool :=
  vd.attrs.any fun a =>
    match a with
    | .visibility .external => true
    | .visibility .public => true
    | _ => false

def has_constant_attr (vd : Sol.VariableDefinition) : Bool :=
  vd.attrs.any fun a =>
    match a with
    | .constant => true
    | _ => false

def has_immutable_attr (vd : Sol.VariableDefinition) : Bool :=
  vd.attrs.any fun a =>
    match a with
    | .immutable => true
    | _ => false

/-- The VariableDefinition arm of translate_contract_definition:
constant variables become module constants (public iff the source marks
them public or external), immutable variables hit todo!, everything else
is appended to the lazily created storage block. -/
def translate_variable_part (vd : Sol.VariableDefinition) (m : Sway.Module) :
    Sway.Module × Option Failure :=
  let is_public := is_public_variable vd
  if has_constant_attr vd then
    match vd.name with
    | none => (m, some unwrapFatal)
    | some n =>
      ({ m with items := m.items ++
          [.constantDef
            { is_public := is_public,
              name := toUpperSnake n.name,
              type_name := translate_type_name vd.ty,
              value := some todo_call }] },
        none)
  else if has_immutable_attr vd then
    (m, some (.fatal "Determine how to handle immutable variables (should it be a configurable?)"))
  else
    match vd.name with
    | none => (m, some unwrapFatal)
    | some n =>
      let s := m.get_or_create_storage.1
      let m1 := m.get_or_create_storage.2
      let field : Sway.StorageField :=
        { name := toSnakeCase n.name,
          type_name := translate_type_name vd.ty,
          value := todo_call }
      ({ m1 with storage := some { fields := s.fields ++ [field] } }, none)

def is_public_function (fd : Sol.FunctionDefinition) : Bool :=
  fd.attributes.any fun a =>
    match a with
    | .visibility .external => true
    | .visibility .public => true
    | _ => false

def is_constructor_fn (fd : Sol.FunctionDefinition) : Bool :=
  match fd.ty with
  | .constructor => true
  | _ => false

def is_modifier_fn (fd : Sol.FunctionDefinition) : Bool :=
  match fd.ty with
  | .modifierTy => true
  | _ => false

/-- The signature pushed into the ABI: empty parameters, no return type,
no body (parameter and return lowering are stubbed). -/
def fn_sig (nm : String) : Sway.Function :=
  { is_public := false,
    name := nm,
    generic_parameters := emptyGenerics,
    parameters := { entries := [] },
    return_type := none,
    body := none }

/-- The stub body attached before the function is pushed into the
implementation block. -/
def fn_stub_body : Sway.Block :=
  { statements := [], final_expr := some todo_call }

/-- Appends one item to the implementation block for (tn, Contract),
creating the block first when it does not exist, exactly as
`get_or_create_impl_for` followed by a push through the reference. -/
def add_impl_item (m : Sway.Module) (tn : String) (it : Sway.ImplItem) : Sway.Module :=
  let (ifor, m1) := m.get_or_create_impl_for tn "Contract"
  m1.set_impl_for tn "Contract" { ifor with items := ifor.items ++ [it] }

/-- The promoted-function path: push the signature into the lazily
created ABI, then push the stub-bodied copy into the implementation
block for (contract, Contract). -/
def promote_function (contract_name fname : String) (m : Sway.Module) : Sway.Module :=
  let abi := (m.get_or_create_abi contract_name).1
  let m1 := (m.get_or_create_abi contract_name).2
  let m2 := { m1 with abi := some { abi with functions := abi.functions ++ [fn_sig fname] } }
  add_impl_item m2 contract_name (.function { fn_sig fname with body := some fn_stub_body })

/-- The FunctionDefinition arm of translate_contract_definition:
modifiers are skipped; a constructor or public/external function gets an
ABI signature entry (the constructor under the fixed name, others
snake-cased) and a stub-bodied entry in the contract implementation
block; every other function adds nothing. The ABI section is created
before the name unwrap, as in the source, so it survives the panic. -/
def translate_function_part (contract_name : String) (fd : Sol.FunctionDefinition)
    (m : Sway.Module) : Sway.Module × Option Failure :=
  if is_modifier_fn fd then
    (m, none)
  else if is_public_function fd || is_constructor_fn fd then
    match (if is_constructor_fn fd then some "constructor" else fd.name.map fun n => toSnakeCase n.name) with
    | none => ((m.get_or_create_abi contract_name).2, some unwrapFatal)
    | some fname => (promote_function contract_name fname m, none)
  else
    (m, none)

def structFields : List Sol.VariableDeclaration → Option (List Sway.StructField)
  | [] => some []
  | f :: rest =>
    match f.name with
    | none => none
    | some n =>
      (structFields rest).map
        ({ is_public := true, name := toSnakeCase n.name,
           type_name := translate_type_name f.ty } :: ·)

/-- One arm of the contract-part loop of translate_contract_definition. -/
def translate_contract_part (contract_name : String) (part : Sol.ContractPart)
    (m : Sway.Module) : Sway.Module × Option Failure :=
  match part with
  | .structDefinition sd =>
    match sd.name with
    | none => (m, some unwrapFatal)
    | some n =>
      match structFields sd.fields with
      | none => (m, some unwrapFatal)
      | some fields =>
        ({ m with items := m.items ++
            [.structDef
              { is_public := true, name := n.name,
                generic_parameters := emptyGenerics, fields := fields }] },
          none)
  | .eventDefinition _ => (m, none)
  | .enumDefinition => (m, none)
  | .errorDefinition _ => (m, none)
  | .variableDefinition vd => translate_variable_part vd m
  | .functionDefinition fd => translate_function_part contract_name fd m
  | .typeDefinition td =>
    ({ m with items := m.items ++
        [.typeDef
          { is_public := true,
            name := { name := td.name, generic_parameters := emptyGenerics },
            underlying_type := some (translate_type_name td.ty) }] },
      none)
  | .annot => (m, none)
  | .usingDir => (m, none)
  | .straySemicolon => (m, none)

def translate_contract_parts (contract_name : String) :
    List Sol.ContractPart → Sway.Module → Sway.Module × Option Failure
  | [], m => (m, none)
  | part :: rest, m =>
    match translate_contract_part contract_name part m with
    | (m1, none) => translate_contract_parts contract_name rest m1
    | (m1, some f) => (m1, some f)

/-- Project::translate_contract_definition, returning the lines it
printed: the whole module is printed once, after all members. -/
def translate_contract_definition (cd : Sol.ContractDefinition) : List OutLine × Option Failure :=
  match cd.ty with
  | .abstract => ([], some (.fatal "abstract contracts"))
  | .interface => ([], some (.fatal "interfaces should be handled by translate_interface"))
  | .library => ([], some (.fatal "libraries should be handled by translate_library"))
  | .contract =>
    match cd.name with
    | none => ([], some unwrapFatal)
    | some cname =>
      match translate_contract_parts cname.name cd.parts (Sway.Module.new .contract) with
      | (_, some f) => ([], some f)
      | (m, none) => ([.moduleOut m], none)

/-! ## Translation Driver (project.rs lines 171-252 and main.rs) -/

/-- One top-level item of the first translation pass. Free declarations
are fatal stubs (todo! or unimplemented!), not returned errors. -/
def dispatchPart (_p : String) (st : St) : Sol.SourceUnitPart → St × Option Failure
  | .pragmaDirective => (st, none)
  | .importDirective _ => (st, none)
  | .contractDefinition cd =>
    match cd.ty with
    | .interface =>
      ({ st with stdout := st.stdout ++ (translate_interface cd).1 },
        (translate_interface cd).2)
    | .library => (st, some (.fatal "not yet implemented"))
    | .abstract =>
      ({ st with stdout := st.stdout ++ (translate_contract_definition cd).1 },
        (translate_contract_definition cd).2)
    | .contract =>
      ({ st with stdout := st.stdout ++ (translate_contract_definition cd).1 },
        (translate_contract_definition cd).2)
  | .enumDefinition => (st, some (.fatal "toplevel enums"))
  | .structDefinition => (st, some (.fatal "toplevel structs"))
  | .eventDefinition => (st, some (.fatal "toplevel custom events"))
  | .errorDefinition => (st, some (.fatal "toplevel custom errors"))
  | .functionDefinition => (st, some (.fatal "toplevel functions"))
  | .variableDefinition => (st, some (.fatal "toplevel variable definitions"))
  | .typeDefinition => (st, some (.fatal "toplevel type definitions"))
  | .annot => (st, none)
  | .usingDir => (st, some (.fatal "toplevel using-for statements"))
  | .straySemicolon => (st, none)

def dispatchParts (p : String) (st : St) : List Sol.SourceUnitPart → St × Option Failure
  | [] => (st, none)
  | part :: rest =>
    match dispatchPart p st part with
    | (st1, none) => dispatchParts p st1 rest
    | (st1, some f) => (st1, some f)

/-- Processing of one queued path: lazily parse it when it is not in the
cache yet, look the unit up, and dispatch its top-level items. -/
def translate_one (fs : Fs) (p : String) (st : St) : St × Option Failure :=
  if (assocGet st.solidity_source_units p).isSome then
    match assocGet st.solidity_source_units p with
    | none => (st, some unwrapFatal)
    | some su => dispatchParts p st su.parts
  else
    match parse_solidity_source_unit fs st p with
    | (st1, some f) => (st1, some f)
    | (st1, none) =>
      match assocGet st1.solidity_source_units p with
      | none => (st1, some unwrapFatal)
      | some su => dispatchParts p st1 su.parts

def translateQueue (fs : Fs) : List String → St → St × Option Failure
  | [], st => (st, none)
  | p :: rest, st =>
    match translate_one fs p st with
    | (st1, none) => translateQueue fs rest st1
    | (st1, some f) => (st1, some f)

/-- Project::translate. -/
def translate (fs : Fs) (st : St) : St × Option Failure :=
  match create_conversion_queue fs st with
  | .error f => (st, some f)
  | .ok q => translateQueue fs q st

/-- Display of errors.rs values, modelled from the spec: one line of
text per error. -/
def errorDisplay : Error → String
  | .wrapped m => m
  | .solangDiagnostics p _ m => p ++ ": " ++ m

/-- The stderr text of a panic. No code in src/ produces or bounds this
output: it is the runtime's multi-line panic report, rendered here as an
arbitrary stand-in; no theorem relies on its shape or length. -/
def panicLines (m : String) : List String :=
  ["thread main panicked at src/project.rs", m, "note: backtrace omitted"]

/-- What reaches standard error for a failure: main prints the one-line
Display text of an Err through eprintln; a panic never reaches that
handler and the runtime prints its own report instead. -/
def failure_stderr : Failure → List String
  | .err e => [errorDisplay e]
  | .fatal m => panicLines m

/-- The end state and outcome of one whole run: load the command-line
files, then translate. -/
def mainRunSt (fs : Fs) (args : List String) : St × Option Failure :=
  match loadAll fs args St.empty with
  | (st, some f) => (st, some f)
  | (st, none) => translate fs st

/-- main: stdout is whatever was printed before the run ended; stderr is
empty on success and the failure text otherwise. -/
def mainRun (fs : Fs) (args : List String) : List OutLine × List String :=
  ((mainRunSt fs args).1.stdout,
   match (mainRunSt fs args).2 with
   | some f => failure_stderr f
   | none => [])

/-! ## translate.rs: TranslatedDefinition and its get-or-create accessors

translate.rs builds against a later revision of the sway AST than
project.rs does (optional generic parameter lists, an attributes field on
enums, an inherits list on the ABI), so those types get their own
namespace. Field element types that the accessors never inspect
(functions, configurable and storage entries, type definitions, structs)
are kept as minimal stand-ins. -/

namespace SwayT

structure GenericParameterList where
  entries : List String
deriving DecidableEq

inductive TypeName where
  | Identifier (name : String) (generic_parameters : Option GenericParameterList)
deriving DecidableEq

structure EnumVariant where
  name : String
  type_name : TypeName
deriving DecidableEq

structure Enum where
  attributes : Option (List String)
  is_public : Bool
  name : String
  generic_parameters : Option GenericParameterList
  variants : List EnumVariant
deriving DecidableEq

structure Function where
  name : String
deriving DecidableEq

structure Abi where
  name : String
  inherits : List String
  functions : List Function
deriving DecidableEq

structure Configurable where
  fields : List String
deriving DecidableEq

structure Storage where
  fields : List String
deriving DecidableEq

inductive ImplItem where
  | function (f : Function)
deriving DecidableEq

structure Impl where
  generic_parameters : Option GenericParameterList
  type_name : TypeName
  for_type_name : Option TypeName
  items : List ImplItem
deriving DecidableEq

structure TypeDefinition where
  name : String
deriving DecidableEq

structure Struct where
  name : String
deriving DecidableEq

end SwayT

structure TranslatedDefinition where
  path : String
  kind : Sol.ContractTy
  name : String
  inherits : List String
  type_definitions : List SwayT.TypeDefinition
  structs : List SwayT.Struct
  events_enum : Option SwayT.Enum
  errors_enum : Option SwayT.Enum
  abi : Option SwayT.Abi
  configurable : Option SwayT.Configurable
  storage : Option SwayT.Storage
  functions : List SwayT.Function
  impls : List SwayT.Impl
deriving DecidableEq

/-- TranslatedDefinition::new. -/
def TranslatedDefinition.new (path : String) (kind : Sol.ContractTy) (name : String)
    (inherits : List String) : TranslatedDefinition :=
  { path := path, kind := kind, name := name, inherits := inherits,
    type_definitions := [], structs := [],
    events_enum := none, errors_enum := none, abi := none,
    configurable := none, storage := none, functions := [], impls := [] }

/-- TranslatedDefinition::get_events_enum: creates the enum when absent,
then returns the stored instance. The Rust method returns a mutable
reference; here the returned value is paired with the updated state. -/
def TranslatedDefinition.get_events_enum (d : TranslatedDefinition) :
    SwayT.Enum × TranslatedDefinition :=
  match d.events_enum with
  | some e => (e, d)
  | none =>
    let e : SwayT.Enum :=
      { attributes := none, is_public := false, name := d.name ++ "Event",
        generic_parameters := none, variants := [] }
    (e, { d with events_enum := some e })

/-- TranslatedDefinition::get_errors_enum. -/
def TranslatedDefinition.get_errors_enum (d : TranslatedDefinition) :
    SwayT.Enum × TranslatedDefinition :=
  match d.errors_enum with
  | some e => (e, d)
  | none =>
    let e : SwayT.Enum :=
      { attributes := none, is_public := false, name := d.name ++ "Error",
        generic_parameters := none, variants := [] }
    (e, { d with errors_enum := some e })

/-- TranslatedDefinition::get_abi. -/
def TranslatedDefinition.get_abi (d : TranslatedDefinition) :
    SwayT.Abi × TranslatedDefinition :=
  match d.abi with
  | some a => (a, d)
  | none =>
    let a : SwayT.Abi := { name := d.name, inherits := d.inherits, functions := [] }
    (a, { d with abi := some a })

/-- TranslatedDefinition::get_configurable. -/
def TranslatedDefinition.get_configurable (d : TranslatedDefinition) :
    SwayT.Configurable × TranslatedDefinition :=
  match d.configurable with
  | some c => (c, d)
  | none =>
    let c : SwayT.Configurable := { fields := [] }
    (c, { d with configurable := some c })

/-- TranslatedDefinition::get_storage. -/
def TranslatedDefinition.get_storage (d : TranslatedDefinition) :
    SwayT.Storage × TranslatedDefinition :=
  match d.storage with
  | some s => (s, d)
  | none =>
    let s : SwayT.Storage := { fields := [] }
    (s, { d with storage := some s })

/-- The find_contract_impl closure of get_contract_impl. -/
def find_contract_impl (name : String) (i : SwayT.Impl) : Bool :=
  match i.type_name with
  | .Identifier tn _ =>
    match i.for_type_name with
    | some (.Identifier ftn _) => tn == name && ftn == "Contract"
    | none => false

/-- The implementation block pushed by get_contract_impl when none
matches yet. -/
def newContractImpl (name : String) : SwayT.Impl :=
  { generic_parameters := none,
    type_name := .Identifier name none,
    for_type_name := some (.Identifier "Contract" none),
    items := [] }

/-- TranslatedDefinition::get_contract_impl: pushes a fresh block when
no (name, Contract) block exists, then finds and returns the first
matching block. The find after the push cannot fail, so the None result
(the unwrap panic) is unreachable. -/
def TranslatedDefinition.get_contract_impl (d : TranslatedDefinition) :
    Option SwayT.Impl × TranslatedDefinition :=
  let d1 :=
    if d.impls.any (find_contract_impl d.name) then d
    else { d with impls := d.impls ++ [newContractImpl d.name] }
  match d1.impls.find? (find_contract_impl d.name) with
  | some i => (some i, d1)
  | none => (none, d1)

/-! ## Concrete fixtures used by the theorems -/

/-- A file system holding /A.sol, /B.sol and /C.sol; canonicalization is
the identity on them. -/
def fsABC : Fs :=
  { canonicalize := fun s =>
      if s = "/A.sol" ∨ s = "/B.sol" ∨ s = "/C.sol" then some s else none,
    read := fun _ => none,
    parseSource := fun _ => .error "unused" }

def unitImporting (files : List String) : Sol.SourceUnit :=
  { parts := files.map fun f => .importDirective (.plain (.filename f)) }

/-- Loaded units in iteration order A, B, C, where A imports B and B
imports C. -/
def stC1 : St :=
  { line_ranges := [],
    solidity_source_units :=
      [("/A.sol", unitImporting ["B.sol"]),
       ("/B.sol", unitImporting ["C.sol"]),
       ("/C.sol", unitImporting [])],
    stdout := [] }

/-- The same three units with B iterated before A. -/
def stC1rev : St :=
  { line_ranges := [],
    solidity_source_units :=
      [("/B.sol", unitImporting ["C.sol"]),
       ("/A.sol", unitImporting ["B.sol"]),
       ("/C.sol", unitImporting [])],
    stdout := [] }

/-- Whether x occurs before y in the queue. -/
def orders_before (q : List String) (x y : String) : Bool :=
  match findIndex q x, findIndex q y with
  | some i, some j => i < j
  | _, _ => false

/-- p is resolved to by some import directive of some loaded unit. -/
def is_import_target (fs : Fs) (st : St) (p : String) : Prop :=
  ∃ e ∈ st.solidity_source_units, ∃ ip ∈ unit_imports e.2,
    import_resolves fs (parentDir e.1) ip = some p

instance (fs : Fs) (st : St) (p : String) : Decidable (is_import_target fs st p) := by
  unfold is_import_target
  infer_instance

/-- The interface of claim C8: transfer(address to, uint256 amount)
returns (bool), no events, no errors. -/
def transferInterface : Sol.ContractDefinition :=
  { ty := .interface,
    name := some { name := "Token" },
    parts :=
      [.functionDefinition
        { ty := .function,
          name := some { name := "transfer" },
          attributes := [],
          params :=
            [some { ty := "address", name := some { name := "to" } },
             some { ty := "uint256", name := some { name := "amount" } }],
          returns := [some { ty := "bool", name := none }] }] }

/-- The ABI that translating transferInterface must print. -/
def tokenAbi : Sway.Abi :=
  { name := "Token",
    functions :=
      [{ is_public := false,
         name := "transfer",
         generic_parameters := emptyGenerics,
         parameters :=
           { entries :=
               [{ name := "to", type_name := { name := "Address", generic_parameters := emptyGenerics } },
                { name := "amount", type_name := { name := "u64", generic_parameters := emptyGenerics } }] },
         return_type := some { name := "bool", generic_parameters := emptyGenerics },
         body := none }] }

/-- A file system for the C9 scenario: /R.sol imports /E.sol, and
/E.sol consists of one free enum declaration. -/
def fs9 : Fs :=
  { canonicalize := fun s =>
      if s = "/R.sol" ∨ s = "/E.sol" then some s else none,
    read := fun _ => none,
    parseSource := fun _ => .error "unused" }

def st9 : St :=
  { line_ranges := [],
    solidity_source_units :=
      [("/R.sol", unitImporting ["E.sol"]),
       ("/E.sol", { parts := [.enumDefinition] })],
    stdout := [] }

/-- Source texts of the C10 scenario: /X.sol imports I.sol and M.sol;
/I.sol is the transfer interface; /M.sol fails to parse. Every source
ends in a newline so that loading records a line range for it and the
line-81 unwrap succeeds, as it would on real one-line files. -/
def fs10 : Fs :=
  { canonicalize := fun s =>
      if s = "/X.sol" ∨ s = "/I.sol" ∨ s = "/M.sol" then some s else none,
    read := fun s =>
      if s = "/X.sol" then some "sourceX\n"
      else if s = "/I.sol" then some "sourceI\n"
      else if s = "/M.sol" then some "sourceM\n"
      else none,
    parseSource := fun s =>
      if s = "sourceX\n" then .ok (unitImporting ["I.sol", "M.sol"])
      else if s = "sourceI\n" then .ok { parts := [.contractDefinition transferInterface] }
      else if s = "sourceM\n" then .error "expected pragma"
      else .error "unused" }

/-- A file system for the C6 scenario: one file whose text is one full
line. -/
def fs6 : Fs :=
  { canonicalize := fun s => if s = "/f.sol" then some s else none,
    read := fun s => if s = "/f.sol" then some "a\n" else none,
    parseSource := fun s => if s = "a\n" then .ok { parts := [] } else .error "unused" }

def st6one : St := (parse_solidity_source_unit fs6 St.empty "/f.sol").1

def st6two : St := (parse_solidity_source_unit fs6 st6one "/f.sol").1

/-- A file system on which everything fails. -/
def fsNone : Fs :=
  { canonicalize := fun _ => none,
    read := fun _ => none,
    parseSource := fun _ => .error "unused" }

/-- The top-level categories translate() treats as fatal unsupported
constructs: free enums, structs, events, errors, functions, variables,
type aliases and using directives. -/
def is_free_decl : Sol.SourceUnitPart → Bool
  | .enumDefinition => true
  | .structDefinition => true
  | .eventDefinition => true
  | .errorDefinition => true
  | .functionDefinition => true
  | .variableDefinition => true
  | .typeDefinition => true
  | .usingDir => true
  | _ => false

def has_free_decl (su : Sol.SourceUnit) : Bool :=
  su.parts.any is_free_decl

/-- Fixture: a public constant state variable. -/
def varConstFix : Sol.VariableDefinition :=
  { ty := "uint256",
    attrs := [.constant, .visibility .public],
    name := some { name := "maxSupply" } }

/-- Fixture: an immutable state variable. -/
def varImmFix : Sol.VariableDefinition :=
  { ty := "uint256", attrs := [.immutable], name := some { name := "franchise" } }

/-- Fixture: a plain private state variable. -/
def varStoreFix : Sol.VariableDefinition :=
  { ty := "uint256", attrs := [], name := some { name := "totalSupply" } }

/-- Fixture: an external fallback function. solang parses fallback and
receive declarations with name None. -/
def fallbackFix : Sol.FunctionDefinition :=
  { ty := .fallback, name := none,
    attributes := [.visibility .external], params := [], returns := [] }

/-! ## Theorems -/

/-- C1 counterexample: with A imports B imports C all loaded and A
scanned first, create_conversion_queue returns the queue B, C, in which
C does not precede B — refuting the claimed dependency order. -/
theorem c1_counterexample :
    create_conversion_queue fsABC stC1 = .ok ["/B.sol", "/C.sol"] ∧
    orders_before ["/B.sol", "/C.sol"] "/C.sol" "/B.sol" = false :=
  ⟨rfl, rfl⟩

/-- C1 amended: for the chain A imports B imports C, the queue built by
create_conversion_queue contains exactly the import targets B and C and
never the root A; whether C precedes B depends on the iteration order of
the cached units — scanning B before A yields C, B (C first), while
scanning A before B yields B, C (C last), so the claimed universal
ordering C before B before A does not hold. -/
theorem c1_amended_queue_order :
    create_conversion_queue fsABC stC1 = .ok ["/B.sol", "/C.sol"] ∧
    create_conversion_queue fsABC stC1rev = .ok ["/C.sol", "/B.sol"] ∧
    orders_before ["/C.sol", "/B.sol"] "/C.sol" "/B.sol" = true ∧
    "/A.sol" ∉ (["/B.sol", "/C.sol"] : List String) ∧
    "/A.sol" ∉ (["/C.sol", "/B.sol"] : List String) :=
  ⟨rfl, rfl, rfl, by decide, by decide⟩

/-- C5: on the text a-newline-bb-newline, load_line_ranges records the
two spans (0,1) and (2,4) and no trailing empty span, as the claim says;
but on the text a-newline-bb, which ends without a line break, the final
line bb is dropped entirely — the trailing push guard compares the reset
end component 0 with the start offset and can never fire — so the second
half of the claim fails on the code. -/
theorem c5_line_ranges_eval :
    (St.empty.load_line_ranges "/p.sol" "a\nbb\n").line_ranges =
      [("/p.sol", [(0, 1), (2, 4)])] ∧
    (St.empty.load_line_ranges "/p.sol" "a\nbb").line_ranges =
      [("/p.sol", [(0, 1)])] :=
  ⟨rfl, rfl⟩

/-- C6: loading /f.sol (content a-newline) twice leaves one cache entry,
but the second load runs the reader and parser again and appends a
duplicate copy of the line spans: the table holds (0,1) twice instead of
equalling the single-load table. -/
theorem c6_double_load_eval :
    (parse_solidity_source_unit fs6 St.empty "/f.sol").2 = none ∧
    (parse_solidity_source_unit fs6 st6one "/f.sol").2 = none ∧
    assocGet st6one.line_ranges "/f.sol" = some [(0, 1)] ∧
    assocGet st6two.line_ranges "/f.sol" = some [(0, 1), (0, 1)] ∧
    st6two.solidity_source_units = [("/f.sol", { parts := [] })] :=
  ⟨rfl, rfl, rfl, rfl, rfl⟩

/-- C9 counterexample: a queued unit consisting of one free enum makes
translate abort through the panic channel (todo!), not with an Err value
returned as a Result — refuting the claim that the failure is an error
returned to the caller. -/
theorem c9_counterexample :
    (translate fs9 st9).2 = some (.fatal "toplevel enums") ∧
    is_err_failure (translate fs9 st9).2 = false :=
  ⟨rfl, rfl⟩

/-- C10 counterexample: /X.sol imports the transfer interface and the
unparsable /M.sol. The interface is translated and its ABI is printed to
stdout before /M.sol fails, so the failing run has already emitted
partial results — refuting the claim that no output from files processed
before the failing one is ever emitted. -/
theorem c10_counterexample :
    mainRun fs10 ["/X.sol", "/I.sol"] =
      ([.abiOut tokenAbi], ["/M.sol: expected pragma"]) ∧
    ([OutLine.abiOut tokenAbi] : List OutLine) ≠ [] :=
  ⟨rfl, by simp⟩

/-- Auxiliary: mapUnwrap over a list of Some values never panics. -/
theorem mapUnwrap_map_some {α β : Type} (f : α → β) (l : List α) :
    mapUnwrap f (l.map some) = some (l.map f) := by
  induction l with
  | nil => rfl
  | cons a rest ih => simp [mapUnwrap, ih]

/-- C8: translating the interface declaring
transfer(address to, uint256 amount) returns (bool) with no events or
errors prints exactly one ABI holding one function named transfer whose
parameters map to Address and u64 and whose return type is bool passed
through unchanged, and prints no enum; and in general the translated
return type is absent for zero returns, the single mapped type for one,
and a synthesized tuple type for several. -/
theorem c8_interface_transfer :
    translate_interface transferInterface = ([.abiOut tokenAbi], none) ∧
    interface_return_type [] = some none ∧
    (∀ p : Sol.Parameter,
      interface_return_type [some p] = some (some (translate_type_name p.ty))) ∧
    (∀ p q : Sol.Parameter, ∀ rest : List Sol.Parameter,
      interface_return_type (some p :: some q :: rest.map some) =
        some (some
          { name := "(" ++
              joinComma ((p :: q :: rest).map fun r => (translate_type_name r.ty).name) ++ ")",
            generic_parameters := emptyGenerics })) := by
  refine ⟨rfl, rfl, fun p => rfl, fun p q rest => ?_⟩
  simp [interface_return_type, mapUnwrap, mapUnwrap_map_some]

/-- Auxiliary: the fresh block pushed by get_contract_impl matches the
find_contract_impl test for the same name. -/
theorem find_contract_impl_new (name : String) :
    find_contract_impl name (newContractImpl name) = true := by
  simp [find_contract_impl, newContractImpl]

/-- Auxiliary: when a matching block already exists, get_contract_impl
creates nothing and returns the first match. -/
theorem get_contract_impl_of_any (d : TranslatedDefinition)
    (hA : d.impls.any (find_contract_impl d.name) = true) :
    d.get_contract_impl = (d.impls.find? (find_contract_impl d.name), d) := by
  unfold TranslatedDefinition.get_contract_impl
  simp only [hA, if_true]
  cases hf : d.impls.find? (find_contract_impl d.name) <;> simp [hf]

/-- Auxiliary: when no matching block exists, get_contract_impl pushes
one fresh block and returns it. -/
theorem get_contract_impl_of_none (d : TranslatedDefinition)
    (hA : d.impls.any (find_contract_impl d.name) = false) :
    d.get_contract_impl =
      (some (newContractImpl d.name),
       { d with impls := d.impls ++ [newContractImpl d.name] }) := by
  unfold TranslatedDefinition.get_contract_impl
  have hnone : d.impls.find? (find_contract_impl d.name) = none := by
    rw [List.find?_eq_none]
    intro x hx
    exact (List.any_eq_false.mp hA) x hx
  simp [hA, hnone, find_contract_impl_new]

/-- C3: each get-or-create accessor of TranslatedDefinition is
idempotent — a second call returns the very same section and leaves the
definition unchanged — and get_contract_impl keeps at most one
implementation block for the (name, Contract) pair. The singular
sections are Option fields, so a definition can never hold two of them. -/
theorem c3_get_or_create_idempotent (d : TranslatedDefinition)
    (h : d.impls.countP (find_contract_impl d.name) ≤ 1) :
    d.get_events_enum.2.get_events_enum = d.get_events_enum ∧
    d.get_errors_enum.2.get_errors_enum = d.get_errors_enum ∧
    d.get_abi.2.get_abi = d.get_abi ∧
    d.get_configurable.2.get_configurable = d.get_configurable ∧
    d.get_storage.2.get_storage = d.get_storage ∧
    d.get_contract_impl.2.get_contract_impl = d.get_contract_impl ∧
    d.get_contract_impl.2.impls.countP (find_contract_impl d.name) ≤ 1 := by
  refine ⟨?_, ?_, ?_, ?_, ?_, ?_, ?_⟩
  · cases he : d.events_enum <;> simp [TranslatedDefinition.get_events_enum, he]
  · cases he : d.errors_enum <;> simp [TranslatedDefinition.get_errors_enum, he]
  · cases he : d.abi <;> simp [TranslatedDefinition.get_abi, he]
  · cases he : d.configurable <;> simp [TranslatedDefinition.get_configurable, he]
  · cases he : d.storage <;> simp [TranslatedDefinition.get_storage, he]
  · by_cases hA : d.impls.any (find_contract_impl d.name) = true
    · rw [get_contract_impl_of_any d hA]
      exact get_contract_impl_of_any d hA
    · have hA' : d.impls.any (find_contract_impl d.name) = false :=
        Bool.eq_false_iff.mpr hA
      rw [get_contract_impl_of_none d hA']
      have hA1 : ({ d with impls := d.impls ++ [newContractImpl d.name] } :
          TranslatedDefinition).impls.any (find_contract_impl d.name) = true := by
        simp [find_contract_impl_new]
      have := get_contract_impl_of_any
        { d with impls := d.impls ++ [newContractImpl d.name] } hA1
      rw [this]
      have hnone : d.impls.find? (find_contract_impl d.name) = none := by
        rw [List.find?_eq_none]
        intro x hx
        exact (List.any_eq_false.mp hA') x hx
      simp [hnone, find_contract_impl_new]
  · by_cases hA : d.impls.any (find_contract_impl d.name) = true
    · rw [get_contract_impl_of_any d hA]
      exact h
    · have hA' : d.impls.any (find_contract_impl d.name) = false :=
        Bool.eq_false_iff.mpr hA
      rw [get_contract_impl_of_none d hA']
      have hzero : d.impls.countP (find_contract_impl d.name) = 0 := by
        rw [List.countP_eq_zero]
        intro x hx
        exact (List.any_eq_false.mp hA') x hx
      simp [hzero, find_contract_impl_new]

/-- C3 witness: the accessors evaluated on a freshly created definition. -/
theorem c3_witness :
    (TranslatedDefinition.new "/t.sol" Sol.ContractTy.contract "Token" []).impls.countP
      (find_contract_impl (TranslatedDefinition.new "/t.sol" Sol.ContractTy.contract "Token" []).name) ≤ 1 ∧
    (TranslatedDefinition.new "/t.sol" Sol.ContractTy.contract "Token"
      []).get_events_enum.2.get_events_enum =
      (TranslatedDefinition.new "/t.sol" Sol.ContractTy.contract "Token" []).get_events_enum :=
  ⟨by decide,
   (c3_get_or_create_idempotent
     (TranslatedDefinition.new "/t.sol" Sol.ContractTy.contract "Token" []) (by decide)).1⟩

/-! ### Implementation-block bookkeeping lemmas for the contract translator -/

theorem implMatches_update (tn ftn : String) (i : Sway.Impl) (its : List Sway.ImplItem) :
    Sway.implMatches tn ftn { i with items := its } = Sway.implMatches tn ftn i := rfl

theorem implMatches_fresh (tn ftn : String) (its : List Sway.ImplItem) :
    Sway.implMatches tn ftn { type_name := tn, for_type_name := ftn, items := its } = true := by
  simp [Sway.implMatches]

theorem replaceFirst_countP {α : Type} (p : α → Bool) (x : α) (hx : p x = true) :
    ∀ l : List α, (Sway.replaceFirst p x l).countP p = l.countP p := by
  intro l
  induction l with
  | nil => rfl
  | cons a rest ih =>
    by_cases ha : p a = true
    · simp [Sway.replaceFirst, ha, List.countP_cons, hx]
    · have ha' : p a = false := Bool.eq_false_iff.mpr ha
      simp [Sway.replaceFirst, ha', List.countP_cons, ih]

theorem replaceFirst_append_of_none {α : Type} (p : α → Bool) (x : α) :
    ∀ (l l2 : List α), l.find? p = none →
      Sway.replaceFirst p x (l ++ l2) = l ++ Sway.replaceFirst p x l2 := by
  intro l
  induction l with
  | nil => intro l2 _; rfl
  | cons a rest ih =>
    intro l2 hl
    have hf := List.find?_eq_none.mp hl
    have ha : p a = false := Bool.eq_false_iff.mpr (hf a (by simp))
    have hrest : rest.find? p = none := by
      rw [List.find?_eq_none]
      intro y hy
      exact hf y (by simp [hy])
    simp [Sway.replaceFirst, ha, ih l2 hrest]

theorem find?_replaceFirst {α : Type} (p : α → Bool) (x : α) (hx : p x = true) :
    ∀ (l : List α) (a : α), l.find? p = some a →
      (Sway.replaceFirst p x l).find? p = some x := by
  intro l
  induction l with
  | nil => intro a ha; simp at ha
  | cons b rest ih =>
    intro a ha
    by_cases hb : p b = true
    · simp [Sway.replaceFirst, hb, List.find?_cons, hx]
    · have hb' : p b = false := Bool.eq_false_iff.mpr hb
      rw [List.find?_cons_of_neg _ (by simp [hb'])] at ha
      simp [Sway.replaceFirst, hb', List.find?_cons_of_neg, ih a ha]

theorem contract_impl_items_congr (m1 m2 : Sway.Module) (cn : String)
    (h : m1.impls = m2.impls) :
    Sway.contract_impl_items m1 cn = Sway.contract_impl_items m2 cn := by
  unfold Sway.contract_impl_items
  rw [h]

theorem abi_functions_congr (m1 m2 : Sway.Module) (h : m1.abi = m2.abi) :
    Sway.abi_functions m1 = Sway.abi_functions m2 := by
  unfold Sway.abi_functions
  rw [h]

/-- Appending through add_impl_item leaves the ABI section untouched. -/
theorem add_impl_item_abi (m : Sway.Module) (cn : String) (it : Sway.ImplItem) :
    (add_impl_item m cn it).abi = m.abi := by
  unfold add_impl_item Sway.Module.get_or_create_impl_for Sway.Module.set_impl_for
  cases hf : m.impls.find? (Sway.implMatches cn "Contract") <;> simp [hf]

/-- add_impl_item appends exactly one item to the (cn, Contract) block,
creating the block when absent. -/
theorem add_impl_item_items (m : Sway.Module) (cn : String) (it : Sway.ImplItem) :
    Sway.contract_impl_items (add_impl_item m cn it) cn =
      Sway.contract_impl_items m cn ++ [it] := by
  unfold add_impl_item Sway.Module.get_or_create_impl_for Sway.Module.set_impl_for
    Sway.contract_impl_items
  cases hf : m.impls.find? (Sway.implMatches cn "Contract") with
  | some i =>
    have hpi : Sway.implMatches cn "Contract" i = true := List.find?_some hf
    have hpi' : Sway.implMatches cn "Contract" { i with items := i.items ++ [it] } = true := hpi
    simp only [hf]
    rw [find?_replaceFirst _ _ hpi' m.impls i hf]
  | none =>
    simp only [hf]
    rw [replaceFirst_append_of_none _ _ m.impls _ hf]
    simp [Sway.replaceFirst, implMatches_fresh, List.find?_append, hf]

/-- add_impl_item never raises the number of (cn, Contract) blocks above
one. -/
theorem add_impl_item_countP (m : Sway.Module) (cn : String) (it : Sway.ImplItem)
    (h : m.impls.countP (Sway.implMatches cn "Contract") ≤ 1) :
    (add_impl_item m cn it).impls.countP (Sway.implMatches cn "Contract") ≤ 1 := by
  unfold add_impl_item Sway.Module.get_or_create_impl_for Sway.Module.set_impl_for
  cases hf : m.impls.find? (Sway.implMatches cn "Contract") with
  | some i =>
    have hpi : Sway.implMatches cn "Contract" i = true := List.find?_some hf
    have hpi' : Sway.implMatches cn "Contract" { i with items := i.items ++ [it] } = true := hpi
    simp only [hf]
    rw [replaceFirst_countP _ _ hpi']
    exact h
  | none =>
    have hzero : m.impls.countP (Sway.implMatches cn "Contract") = 0 := by
      rw [List.countP_eq_zero]
      intro a ha
      have := List.find?_eq_none.mp hf a ha
      exact this
    simp only [hf]
    rw [replaceFirst_append_of_none _ _ m.impls _ hf]
    simp [Sway.replaceFirst, implMatches_fresh, List.countP_append, hzero, List.countP_cons]

/-- The abi-push step of the promotion leaves the impls untouched. -/
theorem promote_function_pre_impls (cn fname : String) (m : Sway.Module) :
    ({ (m.get_or_create_abi cn).2 with
        abi := some { (m.get_or_create_abi cn).1 with
          functions := (m.get_or_create_abi cn).1.functions ++ [fn_sig fname] } } :
      Sway.Module).impls = m.impls := by
  cases habi : m.abi <;> simp [Sway.Module.get_or_create_abi, habi]

theorem promote_function_abi (cn fname : String) (m : Sway.Module) :
    Sway.abi_functions (promote_function cn fname m) =
      Sway.abi_functions m ++ [fn_sig fname] := by
  unfold promote_function
  rw [abi_functions_congr _ _ (add_impl_item_abi _ cn _)]
  cases habi : m.abi <;> simp [Sway.Module.get_or_create_abi, habi, Sway.abi_functions]

theorem promote_function_impl_items (cn fname : String) (m : Sway.Module) :
    Sway.contract_impl_items (promote_function cn fname m) cn =
      Sway.contract_impl_items m cn ++
        [Sway.ImplItem.function { fn_sig fname with body := some fn_stub_body }] := by
  unfold promote_function
  rw [add_impl_item_items]
  rw [contract_impl_items_congr _ m cn (promote_function_pre_impls cn fname m)]

theorem promote_function_countP (cn fname : String) (m : Sway.Module)
    (h : m.impls.countP (Sway.implMatches cn "Contract") ≤ 1) :
    (promote_function cn fname m).impls.countP (Sway.implMatches cn "Contract") ≤ 1 := by
  unfold promote_function
  apply add_impl_item_countP
  rw [promote_function_pre_impls cn fname m]
  exact h

/-- C4 amended: in translate_contract_definition, when the processing of
a non-modifier function completes without panicking, it gets an ABI
signature entry together with a matching stub-bodied entry in the single
(contract, Contract) implementation block exactly when it is the
constructor or carries a public or external visibility attribute; the
constructor is promoted under the one fixed reserved name, any other
promoted function under the snake_case form of its name; a
private/internal non-constructor function changes nothing. But a
public/external non-constructor function without a name — how solang
parses fallback and receive — panics at the name unwrap right after the
empty ABI section is created, and receives no entry at all, so the
original iff fails there (see c4_counterexample). -/
theorem c4_function_promotion (cn : String) (fd : Sol.FunctionDefinition) (m : Sway.Module)
    (hmod : is_modifier_fn fd = false) :
    ((is_constructor_fn fd = true ∨ is_public_function fd = true) →
      ∀ m1, translate_function_part cn fd m = (m1, none) →
        ∃ nm,
          (is_constructor_fn fd = true → nm = "constructor") ∧
          (is_constructor_fn fd = false → ∃ n, fd.name = some n ∧ nm = toSnakeCase n.name) ∧
          Sway.abi_functions m1 = Sway.abi_functions m ++ [fn_sig nm] ∧
          Sway.contract_impl_items m1 cn =
            Sway.contract_impl_items m cn ++
              [Sway.ImplItem.function { fn_sig nm with body := some fn_stub_body }] ∧
          (m.impls.countP (Sway.implMatches cn "Contract") ≤ 1 →
            m1.impls.countP (Sway.implMatches cn "Contract") ≤ 1)) ∧
    ((is_constructor_fn fd = false ∧ is_public_function fd = false) →
      translate_function_part cn fd m = (m, none)) ∧
    ((is_public_function fd = true ∧ is_constructor_fn fd = false ∧ fd.name = none) →
      translate_function_part cn fd m =
        ((m.get_or_create_abi cn).2, some unwrapFatal)) := by
  refine ⟨?_, ?_, ?_⟩
  · intro hpub m1 heq
    have hor : (is_public_function fd || is_constructor_fn fd) = true := by
      rcases hpub with h1 | h1 <;> simp [h1]
    unfold translate_function_part at heq
    rw [hmod] at heq
    simp only [Bool.false_eq_true, if_false, hor, if_true] at heq
    cases hc : is_constructor_fn fd with
    | true =>
      rw [hc] at heq
      simp only [if_true] at heq
      have hm1 : m1 = promote_function cn "constructor" m := by
        have := congrArg Prod.fst heq
        simpa using this.symm
      refine ⟨"constructor", fun _ => rfl, ?_, ?_, ?_, ?_⟩
      · intro hfalse; simp [hc] at hfalse
      · rw [hm1]; exact promote_function_abi cn "constructor" m
      · rw [hm1]; exact promote_function_impl_items cn "constructor" m
      · intro hcount; rw [hm1]; exact promote_function_countP cn "constructor" m hcount
    | false =>
      rw [hc] at heq
      simp only [Bool.false_eq_true, if_false] at heq
      cases hn : fd.name with
      | none => rw [hn] at heq; simp at heq
      | some n =>
        rw [hn] at heq
        simp only [Option.map_some'] at heq
        have hm1 : m1 = promote_function cn (toSnakeCase n.name) m := by
          have := congrArg Prod.fst heq
          simpa using this.symm
        refine ⟨toSnakeCase n.name, ?_, fun _ => ⟨n, rfl, rfl⟩, ?_, ?_, ?_⟩
        · intro htrue; simp [hc] at htrue
        · rw [hm1]; exact promote_function_abi cn _ m
        · rw [hm1]; exact promote_function_impl_items cn _ m
        · intro hcount; rw [hm1]; exact promote_function_countP cn _ m hcount
  · intro h2
    obtain ⟨hc, hp⟩ := h2
    unfold translate_function_part
    rw [hmod, hc, hp]
    rfl
  · intro h3
    obtain ⟨hp, hc, hn⟩ := h3
    unfold translate_function_part
    rw [hmod, hp, hc, hn]
    rfl

/-- C4 witness: a public function named doThing is promoted into the ABI
and the contract implementation block under the name do_thing, a private
function leaves the module unchanged, and a public nameless fallback
panics with the empty ABI section created, on a fresh module. -/
theorem c4_witness :
    (is_modifier_fn
        { ty := .function, name := some { name := "doThing" },
          attributes := [.visibility .public], params := [], returns := [] } = false) ∧
    Sway.abi_functions
        (translate_function_part "Token"
          { ty := .function, name := some { name := "doThing" },
            attributes := [.visibility .public], params := [], returns := [] }
          (Sway.Module.new .contract)).1 =
      Sway.abi_functions (Sway.Module.new .contract) ++ [fn_sig "do_thing"] ∧
    translate_function_part "Token"
        { ty := .function, name := some { name := "hidden" },
          attributes := [.visibility .internal], params := [], returns := [] }
        (Sway.Module.new .contract) =
      (Sway.Module.new .contract, none) ∧
    translate_function_part "Token" fallbackFix (Sway.Module.new .contract) =
      (((Sway.Module.new .contract).get_or_create_abi "Token").2, some unwrapFatal) := by
  refine ⟨rfl, ?_, ?_, ?_⟩
  · obtain ⟨nm, hcons, hother, habi, _, _⟩ :=
      (c4_function_promotion "Token"
        { ty := .function, name := some { name := "doThing" },
          attributes := [.visibility .public], params := [], returns := [] }
        (Sway.Module.new .contract) rfl).1 (Or.inr rfl)
        (translate_function_part "Token"
          { ty := .function, name := some { name := "doThing" },
            attributes := [.visibility .public], params := [], returns := [] }
          (Sway.Module.new .contract)).1 rfl
    obtain ⟨n, hn, hnm⟩ := hother rfl
    have hdo : nm = "do_thing" := by
      rw [hnm]
      cases hn
      decide
    rw [hdo] at habi
    exact habi
  · exact (c4_function_promotion "Token"
      { ty := .function, name := some { name := "hidden" },
        attributes := [.visibility .internal], params := [], returns := [] }
      (Sway.Module.new .contract) rfl).2.1 ⟨rfl, rfl⟩
  · exact (c4_function_promotion "Token" fallbackFix
      (Sway.Module.new .contract) rfl).2.2 ⟨rfl, rfl, rfl⟩

/-- C4 counterexample: an external fallback function — non-modifier,
public, not the constructor — is parsed by solang with no name, so the
code panics at the name unwrap after creating the empty ABI section: the
function receives no ABI signature entry and no implementation-block
entry, refuting the claimed iff as stated. -/
theorem c4_counterexample :
    is_modifier_fn fallbackFix = false ∧
    is_public_function fallbackFix = true ∧
    is_constructor_fn fallbackFix = false ∧
    translate_function_part "Token" fallbackFix (Sway.Module.new .contract) =
      ({ kind := .contract, items := [],
         abi := some { name := "Token", functions := [] },
         storage := none, impls := [] }, some unwrapFatal) ∧
    Sway.abi_functions
      (translate_function_part "Token" fallbackFix (Sway.Module.new .contract)).1 = [] ∧
    Sway.contract_impl_items
      (translate_function_part "Token" fallbackFix (Sway.Module.new .contract)).1 "Token" = [] :=
  ⟨rfl, rfl, rfl, rfl, rfl, rfl⟩

/-- C7: translate_contract_definition classifies each state variable by
one mutually exclusive attribute check — constant wins, then immutable,
then the storage default: a constant variable becomes a module constant
whose visibility flag is set exactly when the source carries a public or
external visibility attribute; an immutable variable is a fatal stub; a
variable with neither attribute is appended to the lazily created
storage block, which carries no visibility marker. -/
theorem c7_variable_classification (vd : Sol.VariableDefinition) (m : Sway.Module) :
    (is_public_variable vd = true ↔
      ∃ a ∈ vd.attrs,
        a = Sol.VariableAttribute.visibility .external ∨
        a = Sol.VariableAttribute.visibility .public) ∧
    (has_constant_attr vd = true → ∀ n, vd.name = some n →
      translate_variable_part vd m =
        ({ m with items := m.items ++
            [.constantDef
              { is_public := is_public_variable vd,
                name := toUpperSnake n.name,
                type_name := translate_type_name vd.ty,
                value := some todo_call }] }, none)) ∧
    (has_constant_attr vd = false → has_immutable_attr vd = true →
      translate_variable_part vd m =
        (m, some (.fatal
          "Determine how to handle immutable variables (should it be a configurable?)"))) ∧
    (has_constant_attr vd = false → has_immutable_attr vd = false →
      ∀ n, vd.name = some n →
      translate_variable_part vd m =
        ({ m with storage := some (
            { fields := Sway.storage_fields m ++
                [{ name := toSnakeCase n.name,
                   type_name := translate_type_name vd.ty,
                   value := todo_call }] } : Sway.Storage) }, none)) := by
  refine ⟨?_, ?_, ?_, ?_⟩
  · unfold is_public_variable
    rw [List.any_eq_true]
    constructor
    · rintro ⟨a, ha, hm⟩
      refine ⟨a, ha, ?_⟩
      cases a with
      | visibility v =>
        cases v with
        | external => exact Or.inl rfl
        | public => exact Or.inr rfl
        | internal => simp at hm
        | privateVis => simp at hm
      | constant => simp at hm
      | immutable => simp at hm
      | other => simp at hm
    · rintro ⟨a, ha, h | h⟩ <;> subst h <;> exact ⟨_, ha, rfl⟩
  · intro hconst n hn
    unfold translate_variable_part
    rw [hconst, hn]
    rfl
  · intro hc hi
    unfold translate_variable_part
    rw [hc, hi]
    rfl
  · intro hc hi n hn
    unfold translate_variable_part
    rw [hc, hi, hn]
    cases hs : m.storage <;>
      simp [Sway.Module.get_or_create_storage, hs, Sway.storage_fields]

/-- C7 witness: the three classifications evaluated on concrete state
variables over a fresh module — a public constant becomes a public
module constant MAX_SUPPLY, an immutable variable panics, a plain
variable becomes the storage field total_supply. -/
theorem c7_witness :
    translate_variable_part varConstFix (Sway.Module.new .contract) =
      ({ Sway.Module.new .contract with items :=
          [.constantDef
            { is_public := true, name := "MAX_SUPPLY",
              type_name := { name := "u64", generic_parameters := emptyGenerics },
              value := some todo_call }] }, none) ∧
    translate_variable_part varImmFix (Sway.Module.new .contract) =
      (Sway.Module.new .contract, some (.fatal
        "Determine how to handle immutable variables (should it be a configurable?)")) ∧
    translate_variable_part varStoreFix (Sway.Module.new .contract) =
      ({ Sway.Module.new .contract with storage := some (
          { fields :=
              [{ name := "total_supply",
                 type_name := { name := "u64", generic_parameters := emptyGenerics },
                 value := todo_call }] } : Sway.Storage) }, none) ∧
    (is_public_variable varConstFix = true) ∧
    (is_public_variable varStoreFix = false) := by
  refine ⟨?_, ?_, ?_, rfl, rfl⟩
  · exact (c7_variable_classification varConstFix (Sway.Module.new .contract)).2.1
      rfl { name := "maxSupply" } rfl
  · exact (c7_variable_classification varImmFix (Sway.Module.new .contract)).2.2.1 rfl rfl
  · exact (c7_variable_classification varStoreFix (Sway.Module.new .contract)).2.2.2
      rfl rfl { name := "totalSupply" } rfl

/-! ### Queue membership lemmas -/

theorem queue_import_path_mem (fs : Fs) (dir : String) (q q1 : List String)
    (ip : Sol.ImportPath) (h : queue_import_path fs dir q ip = .ok q1) :
    ∀ x ∈ q1, x ∈ q ∨ import_resolves fs dir ip = some x := by
  cases ip with
  | filename f =>
    simp only [queue_import_path] at h
    cases hc : fs.canonicalize (joinPath dir f) with
    | none => simp only [hc] at h; cases h
    | some ipath =>
      simp only [hc] at h
      cases hidx : findIndex q ipath with
      | some i =>
        simp only [hidx] at h
        have hq : ipath :: q.eraseIdx i = q1 := by
          cases h; rfl
        intro x hx
        rw [← hq] at hx
        rcases List.mem_cons.mp hx with hx | hx
        · subst hx
          right
          simpa [import_resolves] using hc
        · exact Or.inl (List.mem_of_mem_eraseIdx hx)
      | none =>
        simp only [hidx] at h
        have hq : q ++ [ipath] = q1 := by
          cases h; rfl
        intro x hx
        rw [← hq] at hx
        rcases List.mem_append.mp hx with hx | hx
        · exact Or.inl hx
        · right
          have : x = ipath := by simpa using hx
          subst this
          simpa [import_resolves] using hc
  | path s => cases h

theorem queueImports_mem (fs : Fs) (dir : String) :
    ∀ (ips : List Sol.ImportPath) (q q1 : List String),
      queueImports fs dir ips q = .ok q1 →
      ∀ x ∈ q1, x ∈ q ∨ ∃ ip ∈ ips, import_resolves fs dir ip = some x := by
  intro ips
  induction ips with
  | nil =>
    intro q q1 h x hx
    cases h
    exact Or.inl hx
  | cons ip rest ih =>
    intro q q1 h x hx
    unfold queueImports at h
    cases hstep : queue_import_path fs dir q ip with
    | error f => rw [hstep] at h; cases h
    | ok q2 =>
      rw [hstep] at h
      rcases ih q2 q1 h x hx with hq2 | ⟨ip', hip', hres⟩
      · rcases queue_import_path_mem fs dir q q2 ip hstep x hq2 with hq | hres
        · exact Or.inl hq
        · exact Or.inr ⟨ip, by simp, hres⟩
      · exact Or.inr ⟨ip', by simp [hip'], hres⟩

theorem queueUnits_mem (fs : Fs) :
    ∀ (units : List (String × Sol.SourceUnit)) (q q1 : List String),
      queueUnits fs units q = .ok q1 →
      ∀ x ∈ q1, x ∈ q ∨ ∃ e ∈ units, ∃ ip ∈ unit_imports e.2,
        import_resolves fs (parentDir e.1) ip = some x := by
  intro units
  induction units with
  | nil =>
    intro q q1 h x hx
    cases h
    exact Or.inl hx
  | cons e rest ih =>
    intro q q1 h x hx
    unfold queueUnits at h
    cases hstep : queueImports fs (parentDir e.1) (unit_imports e.2) q with
    | error f => rw [hstep] at h; cases h
    | ok q2 =>
      rw [hstep] at h
      rcases ih q2 q1 h x hx with hq2 | ⟨e', he', hrest⟩
      · rcases queueImports_mem fs (parentDir e.1) (unit_imports e.2) q q2 hstep x hq2 with
          hq | ⟨ip, hip, hres⟩
        · exact Or.inl hq
        · exact Or.inr ⟨e, by simp, ip, hip, hres⟩
      · exact Or.inr ⟨e', by simp [he'], hrest⟩

/-- C2: a path that no loaded unit resolves an import to — in
particular a file supplied only on the command line — never enters the
conversion queue, and translate() iterates over exactly this queue, so
such a file is never dispatched and produces no output. -/
theorem c2_only_import_targets_queued (fs : Fs) (st : St) (p : String) (q : List String)
    (hq : create_conversion_queue fs st = .ok q)
    (hnt : ¬ is_import_target fs st p) :
    p ∉ q := by
  intro hp
  rcases queueUnits_mem fs st.solidity_source_units [] q hq p hp with hfalse | htarget
  · cases hfalse
  · exact hnt htarget

/-- C2 witness: the root /A.sol of the A imports B imports C fixture is
not an import target and is absent from the computed queue. -/
theorem c2_witness :
    create_conversion_queue fsABC stC1 = .ok ["/B.sol", "/C.sol"] ∧
    ¬ is_import_target fsABC stC1 "/A.sol" ∧
    "/A.sol" ∉ (["/B.sol", "/C.sol"] : List String) :=
  ⟨rfl, by decide, c2_only_import_targets_queued fsABC stC1 "/A.sol" _ rfl (by decide)⟩

/-! ### Preservation lemmas for the translation driver -/

theorem dispatchPart_units (p : String) (st : St) (part : Sol.SourceUnitPart) :
    (dispatchPart p st part).1.solidity_source_units = st.solidity_source_units := by
  cases part with
  | contractDefinition cd => rcases hty : cd.ty <;> simp [dispatchPart, hty]
  | pragmaDirective => rfl
  | importDirective i => rfl
  | enumDefinition => rfl
  | structDefinition => rfl
  | eventDefinition => rfl
  | errorDefinition => rfl
  | functionDefinition => rfl
  | variableDefinition => rfl
  | typeDefinition => rfl
  | annot => rfl
  | usingDir => rfl
  | straySemicolon => rfl

theorem dispatchParts_units (p : String) :
    ∀ (parts : List Sol.SourceUnitPart) (st : St),
      (dispatchParts p st parts).1.solidity_source_units = st.solidity_source_units := by
  intro parts
  induction parts with
  | nil => intro st; rfl
  | cons part rest ih =>
    intro st
    unfold dispatchParts
    rcases hstep : dispatchPart p st part with ⟨st1, f?⟩
    have hst1 : st1.solidity_source_units = st.solidity_source_units := by
      have := dispatchPart_units p st part
      rw [hstep] at this
      exact this
    cases f? with
    | none => simpa [hst1] using ih st1
    | some f => simpa using hst1

theorem assocGet_insert_ne {β : Type} (k p : String) (v : β) (hne : k ≠ p) :
    ∀ l : List (String × β), assocGet (assocInsert l k v) p = assocGet l p := by
  intro l
  induction l with
  | nil => simp [assocInsert, assocGet, hne]
  | cons e rest ih =>
    by_cases he : e.1 = k
    · simp [assocInsert, assocGet, he, hne]
    · simp only [assocInsert, assocGet]
      rw [show (e.1, e.2) = e from rfl]
      simp [he, assocGet, ih]

theorem load_line_ranges_units (st : St) (path source : String) :
    (St.load_line_ranges st path source).solidity_source_units =
      st.solidity_source_units := by
  unfold St.load_line_ranges
  by_cases h : (computeLineRanges source).isEmpty <;> simp [h]

theorem parse_units_preserved (fs : Fs) (st : St) (x p : String)
    (hc : fs.canonicalize (normalizePath x) ≠ some p) :
    assocGet (parse_solidity_source_unit fs st x).1.solidity_source_units p =
      assocGet st.solidity_source_units p := by
  unfold parse_solidity_source_unit
  cases hcc : fs.canonicalize (normalizePath x) with
  | none => simp only [hcc]
  | some path =>
    have hpne : path ≠ p := by
      intro h
      exact hc (by rw [hcc, h])
    simp only [hcc]
    cases hr : fs.read path with
    | none => rfl
    | some source =>
      simp only [hr]
      cases hlr : assocGet (st.load_line_ranges path source).line_ranges path with
      | none =>
        simp only [hlr]
        rw [load_line_ranges_units]
      | some lrs =>
        simp only [hlr]
        cases hp : fs.parseSource source with
        | error msg =>
          simp only [hp]
          rw [load_line_ranges_units]
        | ok su =>
          simp only [hp]
          rw [assocGet_insert_ne path p su hpne]
          rw [load_line_ranges_units]

/-- A free top-level declaration makes the dispatch of the unit parts
end in a failure. -/
theorem dispatch_fatal_of_free (p : String) :
    ∀ (parts : List Sol.SourceUnitPart) (st : St),
      parts.any is_free_decl = true → (dispatchParts p st parts).2 ≠ none := by
  intro parts
  induction parts with
  | nil => intro st h; simp at h
  | cons part rest ih =>
    intro st hany
    unfold dispatchParts
    rcases hstep : dispatchPart p st part with ⟨st1, f?⟩
    cases f? with
    | some f => simp
    | none =>
      by_cases hfree : is_free_decl part = true
      · exfalso
        have : (dispatchPart p st part).2 ≠ none := by
          cases part <;> simp_all [is_free_decl, dispatchPart]
        rw [hstep] at this
        exact this rfl
      · have hrest : rest.any is_free_decl = true := by
          rcases List.any_eq_true.mp hany with ⟨a, ha, hfa⟩
          rcases List.mem_cons.mp ha with rfl | ha
          · exact absurd hfa hfree
          · exact List.any_eq_true.mpr ⟨a, ha, hfa⟩
        simpa using ih st1 hrest

/-- Processing one other queue entry cannot disturb the cached unit at p
when no canonicalization lands on p. -/
theorem translate_one_units_preserved (fs : Fs) (h p : String) (st st1 : St)
    (f? : Option Failure)
    (hc : fs.canonicalize (normalizePath h) ≠ some p)
    (hstep : translate_one fs h st = (st1, f?)) :
    assocGet st1.solidity_source_units p = assocGet st.solidity_source_units p := by
  unfold translate_one at hstep
  cases hs : (assocGet st.solidity_source_units h).isSome with
  | true =>
    simp only [hs, if_true] at hstep
    cases hu : assocGet st.solidity_source_units h with
    | none => simp only [hu] at hstep; cases hstep; rfl
    | some su =>
      simp only [hu] at hstep
      have hd := dispatchParts_units h su.parts st
      rw [hstep] at hd
      rw [hd]
  | false =>
    simp only [hs, Bool.false_eq_true, if_false] at hstep
    rcases hparse : parse_solidity_source_unit fs st h with ⟨stP, fP⟩
    have hPres : assocGet stP.solidity_source_units p = assocGet st.solidity_source_units p := by
      have hpu := parse_units_preserved fs st h p hc
      rw [hparse] at hpu
      exact hpu
    simp only [hparse] at hstep
    cases fP with
    | some f => cases hstep; exact hPres
    | none =>
      simp only [] at hstep
      cases hu : assocGet stP.solidity_source_units h with
      | none => simp only [hu] at hstep; cases hstep; exact hPres
      | some su =>
        simp only [hu] at hstep
        have hd := dispatchParts_units h su.parts stP
        rw [hstep] at hd
        rw [hd]
        exact hPres

/-- The queue loop cannot succeed when a queued, already cached unit
holds a free top-level declaration. -/
theorem translateQueue_fails_on_free (fs : Fs) (p : String) (su : Sol.SourceUnit) :
    ∀ (q : List String) (st : St), p ∈ q →
      assocGet st.solidity_source_units p = some su →
      has_free_decl su = true →
      (∀ x ∈ q, x ≠ p → fs.canonicalize (normalizePath x) ≠ some p) →
      (translateQueue fs q st).2 ≠ none := by
  intro q
  induction q with
  | nil => intro st hp; simp at hp
  | cons h rest ih =>
    intro st hp hu hfree hcanon
    unfold translateQueue
    rcases hstep : translate_one fs h st with ⟨st1, f?⟩
    cases f? with
    | some f => simp
    | none =>
      by_cases hhp : h = p
      · subst hhp
        exfalso
        unfold translate_one at hstep
        simp only [hu, Option.isSome_some, if_true] at hstep
        have hfat := dispatch_fatal_of_free h su.parts st hfree
        rw [hstep] at hfat
        exact hfat rfl
      · have hrest : p ∈ rest := by
          rcases List.mem_cons.mp hp with heq | hr
          · exact absurd heq.symm hhp
          · exact hr
        have hu1 : assocGet st1.solidity_source_units p = some su := by
          rw [translate_one_units_preserved fs h p st st1 none
            (hcanon h (by simp) hhp) hstep]
          exact hu
        have hih := ih st1 hrest hu1 hfree
          (fun x hx hne => hcanon x (by simp [hx]) hne)
        simpa using hih

/-- C9 amended: a queued unit holding a free top-level declaration makes
translate fail — it neither succeeds nor silently skips the construct —
but the abort travels on the panic channel (todo! or unimplemented!),
or an earlier failure ends the run first; it is not an Err value
returned as a Result, as c9_counterexample shows. -/
theorem c9_free_decl_aborts (fs : Fs) (st : St) (q : List String) (p : String)
    (su : Sol.SourceUnit)
    (hq : create_conversion_queue fs st = .ok q) (hp : p ∈ q)
    (hu : assocGet st.solidity_source_units p = some su)
    (hfree : has_free_decl su = true)
    (hcanon : ∀ x ∈ q, x ≠ p → fs.canonicalize (normalizePath x) ≠ some p) :
    (translate fs st).2 ≠ none := by
  unfold translate
  rw [hq]
  exact translateQueue_fails_on_free fs p su q st hp hu hfree hcanon

/-- C9 witness: the amended theorem applied to the concrete free-enum
unit /E.sol imported by /R.sol. -/
theorem c9_free_decl_aborts_witness :
    create_conversion_queue fs9 st9 = .ok ["/E.sol"] ∧
    "/E.sol" ∈ (["/E.sol"] : List String) ∧
    assocGet st9.solidity_source_units "/E.sol" =
      some { parts := [Sol.SourceUnitPart.enumDefinition] } ∧
    has_free_decl { parts := [Sol.SourceUnitPart.enumDefinition] } = true ∧
    (translate fs9 st9).2 ≠ none :=
  ⟨rfl, by simp, rfl, rfl,
   c9_free_decl_aborts fs9 st9 ["/E.sol"] "/E.sol"
     { parts := [Sol.SourceUnitPart.enumDefinition] } rfl (by simp) rfl rfl
     (by
       intro x hx hne
       simp only [List.mem_singleton] at hx
       exact absurd hx hne)⟩

/-- C10 amended: when a run ends in an Err failure, exactly the one
Display line of the error reaches standard error (a panic instead ends
the process through the runtime, whose report no code in src/ produces
or bounds); nothing reaches stderr on success; and the queue loop stops
at the failing entry, so no further files are processed and no further
output is produced after the failure — but stdout output already
emitted for definitions processed before the failure remains, as
c10_counterexample shows. -/
theorem c10_fail_fast :
    (∀ fs args e, (mainRunSt fs args).2 = some (.err e) →
      (mainRun fs args).2 = [errorDisplay e]) ∧
    (∀ fs args, (mainRunSt fs args).2 = none → (mainRun fs args).2 = []) ∧
    (∀ (fs : Fs) (p : String) (rest : List String) (st st1 : St) (f : Failure),
      translate_one fs p st = (st1, some f) →
      translateQueue fs (p :: rest) st = (st1, some f)) := by
  refine ⟨?_, ?_, ?_⟩
  · intro fs args e h
    unfold mainRun
    rw [h]
    rfl
  · intro fs args h
    unfold mainRun
    rw [h]
  · intro fs p rest st st1 f h
    unfold translateQueue
    rw [h]

/-- C10 witness: the stop-at-failure step and the single stderr line
evaluated at a failing file system. -/
theorem c10_fail_fast_witness :
    (mainRunSt fsNone ["/x.sol"]).2 = some (.err (.wrapped "canonicalize")) ∧
    (mainRun fsNone ["/x.sol"]).2 = ["canonicalize"] ∧
    translate_one fsNone "/x.sol" St.empty =
      (St.empty, some (.err (.wrapped "canonicalize"))) ∧
    translateQueue fsNone ["/x.sol", "/y.sol"] St.empty =
      (St.empty, some (.err (.wrapped "canonicalize"))) :=
  ⟨rfl,
   c10_fail_fast.1 fsNone ["/x.sol"] (.wrapped "canonicalize") rfl,
   rfl,
   c10_fail_fast.2.2 fsNone "/x.sol" ["/y.sol"] St.empty St.empty _ rfl⟩

end Charcoal
